import Mathlib

/-!
Verification development for the kitchen manipulation environment
(`d4rl/kitchen/adept_envs/franka/kitchen_multitask_v0.py`).

The actuation/observation control layer is shallowly embedded: numpy float
arrays become `List ℚ` (3-vectors and quaternions become tuples), Python
exceptions (`assert`, `NotImplementedError`, `ZeroDivisionError`,
`IndexError`, numpy reshape `ValueError`) become an explicit error type
threaded through `Except`, and the mutable `sim.data` fields touched by these
functions become a record passed and returned explicitly.
-/

namespace Kitchen

/-- 3-vectors (rows of `mocap_pos` / `body_xpos`). -/
abbrev V3 := ℚ × ℚ × ℚ

/-- quaternions (rows of `mocap_quat` / `body_xquat`). -/
abbrev V4 := ℚ × ℚ × ℚ × ℚ

def z3 : V3 := (0, 0, 0)

def z4 : V4 := (0, 0, 0, 0)

def addV3 (p q : V3) : V3 := (p.1 + q.1, p.2.1 + q.2.1, p.2.2 + q.2.2)

/-- The Python-level failures these methods can raise. -/
inductive PyError where
  | assertionError
  | notImplementedError
  | zeroDivisionError
  | indexError
  | valueError
deriving DecidableEq

instance exceptDecEq {ε α : Type} [DecidableEq ε] [DecidableEq α] :
    DecidableEq (Except ε α) := fun a b =>
  match a, b with
  | .ok x, .ok y =>
    if h : x = y then isTrue (by rw [h]) else isFalse (fun hh => h (by injection hh))
  | .error x, .error y =>
    if h : x = y then isTrue (by rw [h]) else isFalse (fun hh => h (by injection hh))
  | .ok _, .error _ => isFalse (fun hh => Except.noConfusion hh)
  | .error _, .ok _ => isFalse (fun hh => Except.noConfusion hh)

/-- The slice of `sim.model` read by the embedded methods.
`eq_type`, `eq_obj1id`, `eq_obj2id` are `Option` because
`reset_mocap2body_xpos` checks them against `None`. -/
structure SimModel where
  nmocap : ℕ
  actuator_biastype : List ℤ
  actuator_trnid : List ℕ
  jnt_qposadr : List ℕ
  eq_type : Option (List ℤ)
  eq_obj1id : Option (List ℕ)
  eq_obj2id : Option (List ℕ)
  body_mocapid : List ℤ
deriving DecidableEq

/-- The slice of `sim.data` read/written by the embedded methods.
`ctrl` is `Option` because `ctrl_set_action` checks it against `None`. -/
@[ext]
structure SimData where
  ctrl : Option (List ℚ)
  qpos : List ℚ
  mocap_pos : List V3
  mocap_quat : List V4
  body_xpos : List V3
  body_xquat : List V4
deriving DecidableEq

/-- `mujoco_py.const.EQ_WELD` (mjEQ_WELD). -/
def EQ_WELD : ℤ := 1

/-- Lines 197-198: copy the current pose of body `bid` onto mocap slot `mid`. -/
def writePose (d : SimData) (mid bid : ℕ) : SimData :=
  { d with
    mocap_pos := d.mocap_pos.set mid (d.body_xpos.getD bid z3)
    mocap_quat := d.mocap_quat.set mid (d.body_xquat.getD bid z4) }

/-- Body of the `reset_mocap2body_xpos` loop (lines 181-198) for one
equality constraint `(eq_type, obj1_id, obj2_id)`: non-weld constraints are
skipped; otherwise the endpoint whose `body_mocapid` is not -1 is the mocap
and receives the pose of the other endpoint; if neither endpoint is a mocap
the `assert mocap_id != -1` fails. -/
def resyncStep (m : SimModel) (d : SimData) (c : ℤ × ℕ × ℕ) : Except PyError SimData :=
  if c.1 ≠ EQ_WELD then .ok d
  else
    let mocap1 := m.body_mocapid.getD c.2.1 (-1)
    if mocap1 ≠ -1 then .ok (writePose d mocap1.toNat c.2.2)
    else
      let mocap2 := m.body_mocapid.getD c.2.2 (-1)
      if mocap2 ≠ -1 then .ok (writePose d mocap2.toNat c.2.1)
      else .error PyError.assertionError

/-- The `zip`-driven loop of `reset_mocap2body_xpos` over all constraints. -/
def resyncLoop (m : SimModel) : SimData → List (ℤ × ℕ × ℕ) → Except PyError SimData
  | d, [] => .ok d
  | d, c :: cs =>
    match resyncStep m d c with
    | .ok d2 => resyncLoop m d2 cs
    | .error e => .error e

/-- `KitchenV0.reset_mocap2body_xpos` (lines 170-198): a no-op when any of the
three constraint arrays is `None`, otherwise the per-weld resync loop
(Python `zip` truncates to the shortest array, as `List.zip` does). -/
def reset_mocap2body_xpos (m : SimModel) (d : SimData) : Except PyError SimData :=
  match m.eq_type, m.eq_obj1id, m.eq_obj2id with
  | some ts, some o1s, some o2s => resyncLoop m d (ts.zip (o1s.zip o2s))
  | _, _, _ => .ok d

/-- For a constraint, the (mocap slot, body id) pair `reset_mocap2body_xpos`
would write, if any: `none` for non-welds and for welds with no mocap
endpoint. -/
def weldTarget (m : SimModel) (c : ℤ × ℕ × ℕ) : Option (ℕ × ℕ) :=
  if c.1 = EQ_WELD then
    let mocap1 := m.body_mocapid.getD c.2.1 (-1)
    if mocap1 ≠ -1 then some (mocap1.toNat, c.2.2)
    else
      let mocap2 := m.body_mocapid.getD c.2.2 (-1)
      if mocap2 ≠ -1 then some (mocap2.toNat, c.2.1)
      else none
  else none

/-- A weld constraint neither of whose endpoints resolves to a mocap:
exactly the case in which `reset_mocap2body_xpos` hits its assertion. -/
abbrev badWeld (m : SimModel) (c : ℤ × ℕ × ℕ) : Prop :=
  c.1 = EQ_WELD ∧ weldTarget m c = none

/-- The body id written last onto mocap slot `j` by the resync loop over
`cs` (later constraints overwrite earlier ones). -/
def lastWeldBody (m : SimModel) (j : ℕ) : List (ℤ × ℕ × ℕ) → Option ℕ
  | [] => none
  | c :: cs =>
    match lastWeldBody m j cs with
    | some b => some b
    | none =>
      match weldTarget m c with
      | some mb => if mb.1 = j then some mb.2 else none
      | none => none

/-- Index-aware map used to model the numpy broadcast
`mocap_pos + pos_delta` row by row. -/
def mapWithIndex (f : ℕ → α → β) : ℕ → List α → List β
  | _, [] => []
  | s, a :: as => f s a :: mapWithIndex f (s + 1) as

/-- Row `i` of `action.reshape(nmocap, 7)[:, :3]`. -/
def posDelta (act : List ℚ) (i : ℕ) : V3 :=
  (act.getD (7 * i) 0, act.getD (7 * i + 1) 0, act.getD (7 * i + 2) 0)

/-- Lines 157-158 of `mocap_set_action`: `mocap_pos += pos_delta` while
`mocap_quat` is reassigned to itself (the quaternion columns of the command
are extracted into `quat_delta` but never applied). -/
def mocap_apply_delta (d : SimData) (act : List ℚ) : SimData :=
  { d with
    mocap_pos := mapWithIndex (fun i p => addV3 p (posDelta act i)) 0 d.mocap_pos
    mocap_quat := d.mocap_quat }

/-- `KitchenV0.mocap_set_action` (lines 140-158): when mocaps exist, the
leading `7 * nmocap` entries of the action are taken (`np.split` followed by
`reshape(nmocap, 7)`, which raises `ValueError` when fewer entries exist),
the mocaps are resynced to their welded bodies, and the position deltas are
added. -/
def mocap_set_action (m : SimModel) (d : SimData) (action : List ℚ) : Except PyError SimData :=
  if 0 < m.nmocap then
    if action.length < 7 * m.nmocap then .error PyError.valueError
    else
      match reset_mocap2body_xpos m d with
      | .ok d2 => .ok (mocap_apply_delta d2 (action.take (7 * m.nmocap)))
      | .error e => .error e
  else .ok d

/-- Line 131 of `ctrl_set_action`: `np.split(action, (nmocap * 7,))` keeps
the tail when mocaps exist. -/
def strippedAction (m : SimModel) (action : List ℚ) : List ℚ :=
  if 0 < m.nmocap then action.drop (7 * m.nmocap) else action

/-- Lines 134-138: the value written to `ctrl[i]` — the raw command for
bias type 0 (direct drive), else current `qpos` of the driven joint plus the
command. -/
def ctrlValue (m : SimModel) (qpos : List ℚ) (i : ℕ) (a : ℚ) : ℚ :=
  if m.actuator_biastype.getD i 0 = 0 then a
  else qpos.getD (m.jnt_qposadr.getD (m.actuator_trnid.getD i 0) 0) 0 + a

/-- The `for i in range(action.shape[0])` write loop of `ctrl_set_action`. -/
def ctrlLoop (m : SimModel) (qpos : List ℚ) : List ℚ → ℕ → List ℚ → List ℚ
  | c, _, [] => c
  | c, s, a :: as => ctrlLoop m qpos (c.set s (ctrlValue m qpos s a)) (s + 1) as

/-- `KitchenV0.ctrl_set_action` (lines 126-138). -/
def ctrl_set_action (m : SimModel) (d : SimData) (action : List ℚ) : SimData :=
  let act := strippedAction m action
  match d.ctrl with
  | none => d
  | some c => { d with ctrl := some (ctrlLoop m d.qpos c 0 act) }

/-- `KitchenV0._set_action` (lines 200-216), the action-encoding part:
asserts a 4-vector, scales the position delta by 0.05, appends the fixed
rotation quaternion `[1, 0, 1, 0]` and the duplicated gripper command. -/
def set_action (action : List ℚ) : Except PyError (List ℚ) :=
  if action.length = 4 then
    let pos_ctrl := (action.take 3).map (fun x => x * (1 / 20))
    let gripper_ctrl := action.getD 3 0
    let rot_ctrl : List ℚ := [1, 0, 1, 0]
    .ok (pos_ctrl ++ rot_ctrl ++ [gripper_ctrl, gripper_ctrl])
  else .error PyError.assertionError

/-- `np.clip` on one component. -/
def npClip (x lo hi : ℚ) : ℚ := max lo (min x hi)

/-- The action processing of `KitchenV0.step` (lines 240-293) on the normal
(non-initializing) path: clip to `[-1, 1]`, rescale with
`act_mid = 0`, `act_amp = 2`, and then (line 292) overwrite the result with
the hard-coded `[0, 1, 0, 0]` that is actually dispatched. -/
def step_action_pipeline (a : List ℚ) : List ℚ :=
  let a := a.map (fun x => npClip x (-1) 1)
  let a := a.map (fun x => 0 + x * 2)
  let a := ([0, 1, 0, 0] : List ℚ)
  a

/-- The encoded command `step` hands to `ctrl_set_action` /
`mocap_set_action` for a given caller action. -/
def step_dispatched (a : List ℚ) : Except PyError (List ℚ) :=
  set_action (step_action_pipeline a)

/-- `self.obs_dict` as rebuilt by `_get_obs` (lines 310-321). -/
structure ObsDict where
  t : ℚ
  qp : List ℚ
  qv : List ℚ
  obj_qp : List ℚ
  obj_qv : List ℚ
  goal : List ℚ
deriving DecidableEq

/-- `KitchenV0._get_obs` (lines 310-325): rebuilds the observation
dictionary and, when `goal_concat` holds (it is set to `True` in `__init__`
and never cleared), returns `np.concatenate([qp, obj_qp, goal])`; otherwise
Python falls off the end and returns `None`. -/
def get_obs (t : ℚ) (qp qv obj_qp obj_qv goal : List ℚ) (goal_concat : Bool) :
    ObsDict × Option (List ℚ) :=
  (⟨t, qp, qv, obj_qp, obj_qv, goal⟩,
   if goal_concat then some (qp ++ obj_qp ++ goal) else none)

/-- `KitchenV0.N_DOF_ROBOT`. -/
def N_DOF_ROBOT : ℕ := 9

/-- `KitchenV0.N_DOF_OBJECT`. -/
def N_DOF_OBJECT : ℕ := 21

/-- Length of `self.goal = np.zeros((30,))`. -/
def GOAL_DIM : ℕ := 30

/-- Modelled from the spec: `self.obs_dim` is declared by the external base
class `robot_env.RobotEnv`, which is not under `src/`. The spec fixes it via
the invariants `len(joint_pos) + len(object_pos) + len(goal) ==
observation_dim` (with robot dof 9, object dof 21, goal length 30) and
`goal space size = observation size / 2` (goal 30, so observation 60). -/
def observation_dim : ℕ := 60

/-- The reward breakdown dictionary produced per step. -/
structure RewardDict where
  true_reward : ℚ
  bonus : ℚ
  r_total : ℚ
deriving DecidableEq

/-- `KitchenV0._get_reward_n_score` (lines 222-223): always raises
`NotImplementedError`. -/
def KitchenV0_get_reward_n_score (_obs_dict : ObsDict) :
    Except PyError (RewardDict × ℚ) :=
  .error PyError.notImplementedError

/-- `KitchenTaskRelaxV1._get_reward_n_score` (lines 380-386): all reward
components and the score are zero. -/
def KitchenTaskRelaxV1_get_reward_n_score (_obs_dict : ObsDict) :
    Except PyError (RewardDict × ℚ) :=
  .ok ({ true_reward := 0, bonus := 0, r_total := 0 }, 0)

/-- One recorded rollout as consumed by `evaluate_success`:
`path["env_infos"]["score"]` and `path["env_infos"]["rewards"]["bonus"]`. -/
structure RolloutPath where
  score : List ℚ
  bonus : List ℚ
deriving DecidableEq

/-- `np.mean` of a nonempty array (the embedding is only used, and only
claimed correct, on nonempty score lists; numpy returns NaN on empty ones). -/
def npMean (l : List ℚ) : ℚ := l.sum / (l.length : ℚ)

/-- `np.sign` on a (non-NaN) scalar. -/
def npSign (q : ℚ) : ℚ := if 0 < q then 1 else if q < 0 then -1 else 0

/-- Python 3 `round` to an integer: nearest, ties to even. -/
def roundHalfEven (q : ℚ) : ℤ :=
  if q - ⌊q⌋ < 1 / 2 then ⌊q⌋
  else if 1 / 2 < q - ⌊q⌋ then ⌊q⌋ + 1
  else if ⌊q⌋ % 2 = 0 then ⌊q⌋ else ⌊q⌋ + 1

/-- Python `round(x, 2)`. -/
def pyRound2 (q : ℚ) : ℚ := (roundHalfEven (q * 100) : ℚ) / 100

/-- The `num_success` accumulation loop of `evaluate_success` (lines
343-346): `num_success += bool(path["env_infos"]["rewards"]["bonus"][-1])`,
where indexing `[-1]` on an empty array raises `IndexError`. -/
def countSuccess : List RolloutPath → Except PyError ℕ
  | [] => .ok 0
  | p :: ps =>
    match p.bonus.getLast? with
    | none => .error PyError.indexError
    | some b =>
      match countSuccess ps with
      | .ok n => .ok ((if b ≠ 0 then 1 else 0) + n)
      | .error e => .error e

/-- `KitchenV0.evaluate_success` (lines 335-352): mean per-rollout score,
averaged; success percentage from final-step bonus truthiness (division by
`num_paths` raises `ZeroDivisionError` on an empty batch); fused as
`sign(mean_score) * (1e6 * round(success_percentage, 2) + abs(mean_score))`. -/
def evaluate_success (paths : List RolloutPath) : Except PyError ℚ :=
  let mean_score := npMean (paths.map fun p => npMean p.score)
  match countSuccess paths with
  | .error e => .error e
  | .ok num_success =>
    if paths.length = 0 then .error PyError.zeroDivisionError
    else
      let success_percentage := (num_success : ℚ) * 100 / (paths.length : ℚ)
      .ok (npSign mean_score * (1000000 * pyRound2 success_percentage + |mean_score|))

/-- Whether a rollout's final-step bonus is truthy (spec-side notion used to
state the success-percentage formula). -/
def finalBonusTruthy (p : RolloutPath) : Bool := decide ((p.bonus.getLast?).getD 0 ≠ 0)

/-- Number of successful rollouts, as the claim states it. -/
def numSuccess (paths : List RolloutPath) : ℕ :=
  (paths.filter finalBonusTruthy).length

/-- `mean_score` as the claim states it: average over rollouts of each
rollout's mean per-step score. -/
def meanScore (paths : List RolloutPath) : ℚ :=
  npMean (paths.map fun p => npMean p.score)

/-- `success_percentage` as the claim states it. -/
def successPercentage (paths : List RolloutPath) : ℚ :=
  100 * (numSuccess paths : ℚ) / (paths.length : ℚ)

/-- Concrete model for witnesses of the actuator-dispatch claim: one mocap,
one direct-drive actuator (bias type 0) and one position actuator whose
transmission joint 1 has qpos address 3. -/
def ctrlSampleModel : SimModel :=
  { nmocap := 1, actuator_biastype := [0, 1], actuator_trnid := [0, 1],
    jnt_qposadr := [0, 3], eq_type := none, eq_obj1id := none, eq_obj2id := none,
    body_mocapid := [] }

/-- Concrete data for witnesses of the actuator-dispatch claim. -/
def ctrlSampleData : SimData :=
  { ctrl := some [9, 9], qpos := [2, 0, 0, 5], mocap_pos := [], mocap_quat := [],
    body_xpos := [], body_xquat := [] }

/-- A 9-entry command: 7 mocap entries followed by two actuator commands. -/
def ctrlSampleAction : List ℚ := [0, 0, 0, 0, 0, 0, 0, 3, 4]

/-- Concrete model for the mocap-resync witnesses: one mocap; body 1 is the
mocap (slot 0), welded to physical body 2 by the single weld constraint. -/
def weldSampleModel : SimModel :=
  { nmocap := 1, actuator_biastype := [], actuator_trnid := [], jnt_qposadr := [],
    eq_type := some [1], eq_obj1id := some [1], eq_obj2id := some [2],
    body_mocapid := [-1, 0, -1] }

/-- Concrete data in which the mocap pose disagrees with its welded body. -/
def weldSampleData : SimData :=
  { ctrl := some [], qpos := [], mocap_pos := [(5, 5, 5)], mocap_quat := [(1, 0, 0, 0)],
    body_xpos := [(0, 0, 0), (0, 0, 0), (2, 3, 4)],
    body_xquat := [(0, 0, 0, 0), (0, 0, 0, 0), (0, 1, 0, 0)] }

/-- `weldSampleData` after resyncing the mocap onto body 2. -/
def weldSampleSynced : SimData :=
  { ctrl := some [], qpos := [], mocap_pos := [(2, 3, 4)], mocap_quat := [(0, 1, 0, 0)],
    body_xpos := [(0, 0, 0), (0, 0, 0), (2, 3, 4)],
    body_xquat := [(0, 0, 0, 0), (0, 0, 0, 0), (0, 1, 0, 0)] }

/-- A 7-entry mocap command with position delta `(1, 2, 3)` and a nonzero
quaternion part. -/
def mocapSampleAct : List ℚ := [1, 2, 3, 9, 8, 7, 6]

/-! ## Generic list lemmas -/

theorem getD_set_self {α : Type} (l : List α) (i : ℕ) (v z : α) (h : i < l.length) :
    (l.set i v).getD i z = v := by
  induction l generalizing i with
  | nil => simp at h
  | cons a as ih =>
    cases i with
    | zero => rfl
    | succ n => exact ih n (by simpa using h)

theorem getD_set_ne {α : Type} (l : List α) (i j : ℕ) (v z : α) (h : i ≠ j) :
    (l.set i v).getD j z = l.getD j z := by
  induction l generalizing i j with
  | nil => rfl
  | cons a as ih =>
    cases i with
    | zero =>
      cases j with
      | zero => exact absurd rfl h
      | succ mj => rfl
    | succ n =>
      cases j with
      | zero => rfl
      | succ mj => exact ih n mj (fun hh => h (by rw [hh]))

theorem list_ext_getD {α : Type} (z : α) (l1 l2 : List α) (hlen : l1.length = l2.length)
    (hp : ∀ j, j < l1.length → l1.getD j z = l2.getD j z) : l1 = l2 := by
  induction l1 generalizing l2 with
  | nil =>
    cases l2 with
    | nil => rfl
    | cons b bs => simp at hlen
  | cons a as ih =>
    cases l2 with
    | nil => simp at hlen
    | cons b bs =>
      have h0 : a = b := hp 0 (by simp)
      have ht : as = bs := ih bs (by simpa using hlen)
        (fun j hj => hp (j + 1) (by simpa using Nat.succ_lt_succ hj))
      rw [h0, ht]

theorem getD_take_lt {α : Type} (l : List α) (k i : ℕ) (z : α) (h : i < k) :
    (l.take k).getD i z = l.getD i z := by
  induction l generalizing k i with
  | nil => simp [List.take_nil]
  | cons a as ih =>
    cases k with
    | zero => omega
    | succ n =>
      cases i with
      | zero => rfl
      | succ mi => exact ih n mi (Nat.lt_of_succ_lt_succ h)

theorem getD_replicate {α : Type} (n i : ℕ) (z : α) :
    (List.replicate n z).getD i z = z := by
  induction n generalizing i with
  | zero => rfl
  | succ m ih =>
    cases i with
    | zero => rfl
    | succ j => exact ih j

theorem length_mapWithIndex {α β : Type} (f : ℕ → α → β) (l : List α) :
    ∀ s, (mapWithIndex f s l).length = l.length := by
  induction l with
  | nil => intro s; rfl
  | cons a as ih => intro s; simp only [mapWithIndex, List.length_cons, ih (s + 1)]

theorem getD_mapWithIndex {α β : Type} (f : ℕ → α → β) (za : α) (zb : β)
    (l : List α) (s j : ℕ) (hj : j < l.length) :
    (mapWithIndex f s l).getD j zb = f (s + j) (l.getD j za) := by
  induction l generalizing s j with
  | nil => simp at hj
  | cons a as ih =>
    cases j with
    | zero => simp [mapWithIndex, List.getD_cons_zero]
    | succ mj =>
      have h2 : s + 1 + mj = s + (mj + 1) := by omega
      calc (mapWithIndex f s (a :: as)).getD (mj + 1) zb
          = (mapWithIndex f (s + 1) as).getD mj zb := rfl
        _ = f (s + 1 + mj) (as.getD mj za) := ih (s + 1) mj (by simpa using hj)
        _ = f (s + (mj + 1)) ((a :: as).getD (mj + 1) za) := by
              rw [h2, List.getD_cons_succ]

theorem mapWithIndex_eq_self {α : Type} (f : ℕ → α → α) (hf : ∀ i a, f i a = a)
    (l : List α) : ∀ s, mapWithIndex f s l = l := by
  induction l with
  | nil => intro s; rfl
  | cons a as ih =>
    intro s
    simp only [mapWithIndex]
    rw [hf s a, ih (s + 1)]

theorem mapWithIndex_congr {α β : Type} (f g : ℕ → α → β) (hfg : ∀ i a, f i a = g i a)
    (l : List α) : ∀ s, mapWithIndex f s l = mapWithIndex g s l := by
  induction l with
  | nil => intro s; rfl
  | cons a as ih =>
    intro s
    simp only [mapWithIndex]
    rw [hfg s a, ih (s + 1)]

/-! ## Claim theorems: step action overriding, encoder, observation, reward hooks,
empty-batch evaluation -/

/-- C1: the claim says the caller-supplied action is authoritative in `step`,
but line 292 overwrites every (clipped, rescaled) action with the hard-coded
`[0, 1, 0, 0]` before dispatch: two different in-range actions dispatch the
same encoded command, namely the encoding of `[0, 1, 0, 0]`. This theorem
evaluates the embedded code at the failing inputs. -/
theorem step_ignores_input_action :
    step_dispatched [1, 0, 0, 0] = step_dispatched [0, 0, 0, 1] ∧
    step_dispatched [1, 0, 0, 0] = .ok [0, 1 / 20, 0, 1, 0, 1, 0, 0, 0] ∧
    step_action_pipeline [1, 0, 0, 0] = [0, 1, 0, 0] := by
  refine ⟨rfl, ?_, rfl⟩
  norm_num [step_dispatched, step_action_pipeline, set_action]

/-- C4: the encoder maps `[dx, dy, dz, grip]` to exactly
`[0.05*dx, 0.05*dy, 0.05*dz, 1, 0, 1, 0, grip, grip]` (entries 4-7 are the
fixed un-normalized quaternion `[1, 0, 1, 0]`, the last two entries are the
duplicated gripper command), and any input whose length is not 4 is rejected
by the assertion. -/
theorem set_action_encoding (dx dy dz grip : ℚ) (l : List ℚ) (hl : l.length ≠ 4) :
    set_action [dx, dy, dz, grip] =
      .ok [(1 / 20) * dx, (1 / 20) * dy, (1 / 20) * dz, 1, 0, 1, 0, grip, grip] ∧
    set_action l = .error PyError.assertionError := by
  constructor
  · simp [set_action, mul_comm]
  · simp [set_action, hl]

/-- Witness for C4 at a concrete in-range action and a length-3 action. -/
theorem set_action_encoding_witness :
    set_action [1, 2, 3, 4] =
      .ok [(1 / 20) * 1, (1 / 20) * 2, (1 / 20) * 3, 1, 0, 1, 0, 4, 4] ∧
    set_action [1, 2, 3] = .error PyError.assertionError :=
  ⟨(set_action_encoding 1 2 3 4 [1, 2, 3] (by decide)).1,
   (set_action_encoding 1 2 3 4 [1, 2, 3] (by decide)).2⟩

/-- C7: the flat observation is always `qp ++ obj_qp ++ goal` in that fixed
order, and at the environment's declared dimensions (robot dof 9, object dof
21, goal length 30) its length equals the declared observation
dimensionality. -/
theorem obs_concat_dim (t : ℚ) (qp qv obj_qp obj_qv goal : List ℚ)
    (hqp : qp.length = N_DOF_ROBOT) (hobj : obj_qp.length = N_DOF_OBJECT)
    (hgoal : goal.length = GOAL_DIM) :
    (get_obs t qp qv obj_qp obj_qv goal true).2 = some (qp ++ obj_qp ++ goal) ∧
    (qp ++ obj_qp ++ goal).length = observation_dim := by
  constructor
  · rfl
  · simp [hqp, hobj, hgoal, N_DOF_ROBOT, N_DOF_OBJECT, GOAL_DIM, observation_dim]

/-- Witness for C7 at concrete state vectors of the declared sizes. -/
theorem obs_concat_dim_witness :
    (get_obs 0 (List.replicate 9 0) [] (List.replicate 21 0) [] (List.replicate 30 0)
        true).2 =
      some (List.replicate 9 0 ++ List.replicate 21 0 ++ List.replicate 30 0) ∧
    (List.replicate 9 (0 : ℚ) ++ List.replicate 21 0 ++ List.replicate 30 0).length =
      observation_dim :=
  obs_concat_dim 0 (List.replicate 9 0) [] (List.replicate 21 0) [] (List.replicate 30 0)
    (by decide) (by decide) (by decide)

/-- C8: the base per-step reward hook always raises `NotImplementedError`,
while the concrete task variant returns an all-zero reward breakdown and a
zero score, for every observation dictionary. -/
theorem reward_hooks (obs_dict : ObsDict) :
    KitchenV0_get_reward_n_score obs_dict = .error PyError.notImplementedError ∧
    KitchenTaskRelaxV1_get_reward_n_score obs_dict =
      .ok ({ true_reward := 0, bonus := 0, r_total := 0 }, 0) :=
  ⟨rfl, rfl⟩

/-- C9: `evaluate_success` on an empty rollout batch fails with the
division-by-zero error instead of returning a value. -/
theorem evaluate_success_empty_fails :
    evaluate_success [] = .error PyError.zeroDivisionError := rfl

/-! ## Offline evaluation formula (C2) -/

theorem countSuccess_eq_numSuccess (paths : List RolloutPath)
    (hb : ∀ p ∈ paths, p.bonus ≠ []) :
    countSuccess paths = .ok (numSuccess paths) := by
  induction paths with
  | nil => rfl
  | cons p ps ih =>
    have hp : p.bonus ≠ [] := hb p (by simp)
    have hps : ∀ q ∈ ps, q.bonus ≠ [] := fun q hq => hb q (by simp [hq])
    have hbl : p.bonus.getLast? = some (p.bonus.getLast hp) :=
      List.getLast?_eq_getLast_of_ne_nil hp
    simp only [countSuccess, hbl, ih hps]
    by_cases hz : p.bonus.getLast hp = 0
    · simp [numSuccess, List.filter_cons, finalBonusTruthy, hbl, hz]
    · simp [numSuccess, List.filter_cons, finalBonusTruthy, hbl, hz, Nat.add_comm]

/-- C2: on a nonempty batch of rollouts (each with recorded scores and at
least one bonus entry) `evaluate_success` returns
`sign(mean_score) * (1e6 * round(success_percentage, 2) + abs(mean_score))`,
with `mean_score` the average over rollouts of each rollout's mean score and
`success_percentage = 100 * successes / rollouts`; on the single rollout
with scores `[1, 1]` the result is `1e6 * 100 + 1` with a truthy final bonus
and `1e6 * 0 + 1` with a falsy one. -/
theorem evaluate_success_formula (paths : List RolloutPath)
    (hne : paths ≠ [])
    (hb : ∀ p ∈ paths, p.bonus ≠ [])
    (hscore : ∀ p ∈ paths, p.score ≠ []) :
    evaluate_success paths =
      .ok (npSign (meanScore paths) *
        (1000000 * pyRound2 (successPercentage paths) + |meanScore paths|)) ∧
    evaluate_success [⟨[1, 1], [1]⟩] = .ok (1000000 * 100 + 1) ∧
    evaluate_success [⟨[1, 1], [0]⟩] = .ok (1000000 * 0 + 1) := by
  have hlen0 : ¬ paths.length = 0 := by simpa [List.length_eq_zero] using hne
  have harg : (numSuccess paths : ℚ) * 100 / (paths.length : ℚ) =
      successPercentage paths := by
    unfold successPercentage
    ring
  refine ⟨?_, ?_, ?_⟩
  · simp only [evaluate_success, countSuccess_eq_numSuccess paths hb, hlen0, if_false]
    rw [harg]
    rfl
  · norm_num [evaluate_success, countSuccess, npMean, npSign, pyRound2, roundHalfEven,
      Int.floor_ofNat]
  · norm_num [evaluate_success, countSuccess, npMean, npSign, pyRound2, roundHalfEven,
      Int.floor_zero]

/-- Witness for C2 at a concrete single-rollout batch. -/
theorem evaluate_success_formula_witness :
    evaluate_success [⟨[2], [1]⟩] =
      .ok (npSign (meanScore [⟨[2], [1]⟩]) *
        (1000000 * pyRound2 (successPercentage [⟨[2], [1]⟩]) +
          |meanScore [⟨[2], [1]⟩]|)) ∧
    evaluate_success [⟨[1, 1], [1]⟩] = .ok (1000000 * 100 + 1) ∧
    evaluate_success [⟨[1, 1], [0]⟩] = .ok (1000000 * 0 + 1) :=
  evaluate_success_formula [⟨[2], [1]⟩] (by decide) (by decide) (by decide)

/-! ## Actuator dispatch (C3) -/

theorem ctrlLoop_length (m : SimModel) (q : List ℚ) (act : List ℚ) :
    ∀ (s : ℕ) (c : List ℚ), (ctrlLoop m q c s act).length = c.length := by
  induction act with
  | nil => intro s c; rfl
  | cons a as ih =>
    intro s c
    simp only [ctrlLoop]
    rw [ih (s + 1) (c.set s (ctrlValue m q s a)), List.length_set]

theorem ctrlLoop_getD (m : SimModel) (q : List ℚ) (act : List ℚ) :
    ∀ (s : ℕ) (c : List ℚ) (j : ℕ), j < c.length →
      (ctrlLoop m q c s act).getD j 0 =
        if s ≤ j ∧ j < s + act.length then ctrlValue m q j (act.getD (j - s) 0)
        else c.getD j 0 := by
  induction act with
  | nil =>
    intro s c j hj
    have hcond : ¬ (s ≤ j ∧ j < s + ([] : List ℚ).length) := by
      simp only [List.length_nil, Nat.add_zero]
      omega
    rw [if_neg hcond]
    rfl
  | cons a as ih =>
    intro s c j hj
    simp only [ctrlLoop]
    rw [ih (s + 1) (c.set s (ctrlValue m q s a)) j (by simpa using hj)]
    by_cases h1 : s + 1 ≤ j ∧ j < s + 1 + as.length
    · rw [if_pos h1]
      have h2 : s ≤ j ∧ j < s + (a :: as).length := by
        simp only [List.length_cons]
        omega
      rw [if_pos h2]
      have h3 : j - s = (j - (s + 1)) + 1 := by omega
      rw [h3, List.getD_cons_succ]
    · rw [if_neg h1]
      rcases eq_or_ne j s with h4 | h4
      · subst h4
        rw [getD_set_self c j (ctrlValue m q j a) 0 hj]
        have h5 : j ≤ j ∧ j < j + (a :: as).length := by
          simp only [List.length_cons]
          omega
        rw [if_pos h5]
        have h6 : j - j = 0 := by omega
        rw [h6, List.getD_cons_zero]
      · rw [getD_set_ne c s j (ctrlValue m q s a) 0 (fun hh => h4 hh.symm)]
        have h7 : ¬ (s ≤ j ∧ j < s + (a :: as).length) := by
          simp only [List.length_cons]
          omega
        rw [if_neg h7]

/-- C3: after `ctrl_set_action`, the leading `7 * nmocap` action entries
having been stripped, every dispatched control slot `i` holds the raw
command for a bias-type-0 (direct-drive) actuator and
`qpos[jnt_qposadr[actuator_trnid[i]]] + command` for every other
(position-tracking) actuator; in particular a zero command on a
position-tracking actuator dispatches exactly the current measured joint
position. -/
theorem ctrl_dispatch_values (m : SimModel) (d : SimData) (action c : List ℚ) (i : ℕ)
    (hc : d.ctrl = some c)
    (hi : i < (strippedAction m action).length)
    (hic : i < c.length) :
    ∃ c2, (ctrl_set_action m d action).ctrl = some c2 ∧
      c2.getD i 0 = ctrlValue m d.qpos i ((strippedAction m action).getD i 0) ∧
      (m.actuator_biastype.getD i 0 = 0 →
        c2.getD i 0 = (strippedAction m action).getD i 0) ∧
      (m.actuator_biastype.getD i 0 ≠ 0 →
        c2.getD i 0 =
          d.qpos.getD (m.jnt_qposadr.getD (m.actuator_trnid.getD i 0) 0) 0 +
            (strippedAction m action).getD i 0) ∧
      (m.actuator_biastype.getD i 0 ≠ 0 → (strippedAction m action).getD i 0 = 0 →
        c2.getD i 0 =
          d.qpos.getD (m.jnt_qposadr.getD (m.actuator_trnid.getD i 0) 0) 0) := by
    have hval : (ctrlLoop m d.qpos c 0 (strippedAction m action)).getD i 0 =
        ctrlValue m d.qpos i ((strippedAction m action).getD i 0) := by
      rw [ctrlLoop_getD m d.qpos (strippedAction m action) 0 c i hic]
      rw [if_pos ⟨Nat.zero_le i, by simpa using hi⟩]
      rw [Nat.sub_zero]
    refine ⟨ctrlLoop m d.qpos c 0 (strippedAction m action), ?_, hval, ?_, ?_, ?_⟩
    · simp [ctrl_set_action, hc]
    · intro hbias
      rw [hval]
      unfold ctrlValue
      rw [if_pos hbias]
    · intro hbias
      rw [hval]
      unfold ctrlValue
      rw [if_neg hbias]
    · intro hbias hcmd
      rw [hval]
      unfold ctrlValue
      rw [if_neg hbias, hcmd, add_zero]

/-- Witness for C3 at the concrete two-actuator model, position-tracking
slot `i = 1`. -/
theorem ctrl_dispatch_values_witness :
    ∃ c2, (ctrl_set_action ctrlSampleModel ctrlSampleData ctrlSampleAction).ctrl = some c2 ∧
      c2.getD 1 0 =
        ctrlValue ctrlSampleModel ctrlSampleData.qpos 1
          ((strippedAction ctrlSampleModel ctrlSampleAction).getD 1 0) ∧
      (ctrlSampleModel.actuator_biastype.getD 1 0 = 0 →
        c2.getD 1 0 = (strippedAction ctrlSampleModel ctrlSampleAction).getD 1 0) ∧
      (ctrlSampleModel.actuator_biastype.getD 1 0 ≠ 0 →
        c2.getD 1 0 =
          ctrlSampleData.qpos.getD
            (ctrlSampleModel.jnt_qposadr.getD (ctrlSampleModel.actuator_trnid.getD 1 0) 0) 0 +
            (strippedAction ctrlSampleModel ctrlSampleAction).getD 1 0) ∧
      (ctrlSampleModel.actuator_biastype.getD 1 0 ≠ 0 →
        (strippedAction ctrlSampleModel ctrlSampleAction).getD 1 0 = 0 →
        c2.getD 1 0 =
          ctrlSampleData.qpos.getD
            (ctrlSampleModel.jnt_qposadr.getD (ctrlSampleModel.actuator_trnid.getD 1 0) 0) 0) :=
  ctrl_dispatch_values ctrlSampleModel ctrlSampleData ctrlSampleAction [9, 9] 1
    rfl (by decide) (by decide)

/-! ## Mocap resync characterization (C5, C6, C10) -/

theorem resyncStep_eq (m : SimModel) (d : SimData) (c : ℤ × ℕ × ℕ) :
    resyncStep m d c =
      match weldTarget m c with
      | some mb => .ok (writePose d mb.1 mb.2)
      | none =>
        if c.1 = EQ_WELD then .error PyError.assertionError else .ok d := by
  simp only [resyncStep, weldTarget]
  split_ifs <;> simp_all

theorem resyncStep_ok_fields (m : SimModel) (d e : SimData) (c : ℤ × ℕ × ℕ)
    (h : resyncStep m d c = .ok e) :
    e.ctrl = d.ctrl ∧ e.qpos = d.qpos ∧ e.body_xpos = d.body_xpos ∧
      e.body_xquat = d.body_xquat ∧ e.mocap_pos.length = d.mocap_pos.length ∧
      e.mocap_quat.length = d.mocap_quat.length := by
  rw [resyncStep_eq] at h
  cases hw : weldTarget m c with
  | some mb =>
    rw [hw] at h
    have h2 : (Except.ok (writePose d mb.1 mb.2) : Except PyError SimData) = .ok e := h
    injection h2 with h3
    subst h3
    refine ⟨rfl, rfl, rfl, rfl, ?_, ?_⟩
    · simp [writePose]
    · simp [writePose]
  | none =>
    rw [hw] at h
    by_cases h1 : c.1 = EQ_WELD
    · rw [if_pos h1] at h
      exact absurd h (by simp)
    · rw [if_neg h1] at h
      have h2 : (Except.ok d : Except PyError SimData) = .ok e := h
      injection h2 with h3
      subst h3
      exact ⟨rfl, rfl, rfl, rfl, rfl, rfl⟩

theorem resyncStep_ok_of_good (m : SimModel) (d : SimData) (c : ℤ × ℕ × ℕ)
    (h : ¬ badWeld m c) : ∃ d2, resyncStep m d c = .ok d2 := by
  rw [resyncStep_eq]
  cases hw : weldTarget m c with
  | some mb =>
    exact ⟨writePose d mb.1 mb.2, rfl⟩
  | none =>
    by_cases h1 : c.1 = EQ_WELD
    · exact absurd ⟨h1, hw⟩ h
    · rw [if_neg h1]
      exact ⟨d, rfl⟩

theorem resyncLoop_ok_fields (m : SimModel) :
    ∀ (cs : List (ℤ × ℕ × ℕ)) (d e : SimData), resyncLoop m d cs = .ok e →
      e.ctrl = d.ctrl ∧ e.qpos = d.qpos ∧ e.body_xpos = d.body_xpos ∧
        e.body_xquat = d.body_xquat ∧ e.mocap_pos.length = d.mocap_pos.length ∧
        e.mocap_quat.length = d.mocap_quat.length := by
  intro cs
  induction cs with
  | nil =>
    intro d e h
    have h2 : (Except.ok d : Except PyError SimData) = .ok e := h
    injection h2 with h3
    subst h3
    exact ⟨rfl, rfl, rfl, rfl, rfl, rfl⟩
  | cons c cs ih =>
    intro d e h
    simp only [resyncLoop] at h
    cases hstep : resyncStep m d c with
    | ok d2 =>
      rw [hstep] at h
      obtain ⟨f1, f2, f3, f4, f5, f6⟩ := ih d2 e h
      obtain ⟨g1, g2, g3, g4, g5, g6⟩ := resyncStep_ok_fields m d d2 c hstep
      exact ⟨f1.trans g1, f2.trans g2, f3.trans g3, f4.trans g4, f5.trans g5, f6.trans g6⟩
    | error e2 =>
      rw [hstep] at h
      have h2 : (Except.error e2 : Except PyError SimData) = .ok e := h
      exact absurd h2 (by simp)

theorem resyncLoop_pos_char (m : SimModel) :
    ∀ (cs : List (ℤ × ℕ × ℕ)) (d e : SimData), resyncLoop m d cs = .ok e →
      ∀ j, j < d.mocap_pos.length →
        e.mocap_pos.getD j z3 =
          match lastWeldBody m j cs with
          | some b => d.body_xpos.getD b z3
          | none => d.mocap_pos.getD j z3 := by
  intro cs
  induction cs with
  | nil =>
    intro d e h j hj
    have h2 : (Except.ok d : Except PyError SimData) = .ok e := h
    injection h2 with h3
    subst h3
    rfl
  | cons c cs ih =>
    intro d e h j hj
    simp only [resyncLoop] at h
    cases hstep : resyncStep m d c with
    | error e2 =>
      rw [hstep] at h
      have h2 : (Except.error e2 : Except PyError SimData) = .ok e := h
      exact absurd h2 (by simp)
    | ok d2 =>
      rw [hstep] at h
      have hfields := resyncStep_ok_fields m d d2 c hstep
      have hj2 : j < d2.mocap_pos.length := by
        rw [hfields.2.2.2.2.1]
        exact hj
      have hih := ih d2 e h j hj2
      rw [resyncStep_eq] at hstep
      cases hlast : lastWeldBody m j cs with
      | some b =>
        rw [hlast] at hih
        have hih2 : e.mocap_pos.getD j z3 = d2.body_xpos.getD b z3 := hih
        rw [hfields.2.2.1] at hih2
        have hlw : lastWeldBody m j (c :: cs) = some b := by
          simp only [lastWeldBody, hlast]
        rw [hlw]
        exact hih2
      | none =>
        rw [hlast] at hih
        have hih2 : e.mocap_pos.getD j z3 = d2.mocap_pos.getD j z3 := hih
        cases hw : weldTarget m c with
        | none =>
          rw [hw] at hstep
          have hlw : lastWeldBody m j (c :: cs) = none := by
            simp only [lastWeldBody, hlast, hw]
          rw [hlw]
          by_cases h1 : c.1 = EQ_WELD
          · rw [if_pos h1] at hstep
            have h4 : (Except.error PyError.assertionError : Except PyError SimData) =
                .ok d2 := hstep
            exact absurd h4 (by simp)
          · rw [if_neg h1] at hstep
            have h4 : (Except.ok d : Except PyError SimData) = .ok d2 := hstep
            injection h4 with h5
            subst h5
            exact hih2
        | some mb =>
          rw [hw] at hstep
          have h4 : (Except.ok (writePose d mb.1 mb.2) : Except PyError SimData) =
              .ok d2 := hstep
          injection h4 with h5
          subst h5
          have hlw : lastWeldBody m j (c :: cs) =
              if mb.1 = j then some mb.2 else none := by
            simp only [lastWeldBody, hlast, hw]
          rw [hlw]
          by_cases hmj : mb.1 = j
          · rw [if_pos hmj]
            have h6 : (writePose d mb.1 mb.2).mocap_pos.getD j z3 =
                d.body_xpos.getD mb.2 z3 := by
              rw [hmj]
              exact getD_set_self d.mocap_pos j (d.body_xpos.getD mb.2 z3) z3 hj
            exact hih2.trans h6
          · rw [if_neg hmj]
            have h6 : (writePose d mb.1 mb.2).mocap_pos.getD j z3 =
                d.mocap_pos.getD j z3 :=
              getD_set_ne d.mocap_pos mb.1 j (d.body_xpos.getD mb.2 z3) z3 hmj
            exact hih2.trans h6

theorem resyncLoop_quat_char (m : SimModel) :
    ∀ (cs : List (ℤ × ℕ × ℕ)) (d e : SimData), resyncLoop m d cs = .ok e →
      ∀ j, j < d.mocap_quat.length →
        e.mocap_quat.getD j z4 =
          match lastWeldBody m j cs with
          | some b => d.body_xquat.getD b z4
          | none => d.mocap_quat.getD j z4 := by
  intro cs
  induction cs with
  | nil =>
    intro d e h j hj
    have h2 : (Except.ok d : Except PyError SimData) = .ok e := h
    injection h2 with h3
    subst h3
    rfl
  | cons c cs ih =>
    intro d e h j hj
    simp only [resyncLoop] at h
    cases hstep : resyncStep m d c with
    | error e2 =>
      rw [hstep] at h
      have h2 : (Except.error e2 : Except PyError SimData) = .ok e := h
      exact absurd h2 (by simp)
    | ok d2 =>
      rw [hstep] at h
      have hfields := resyncStep_ok_fields m d d2 c hstep
      have hj2 : j < d2.mocap_quat.length := by
        rw [hfields.2.2.2.2.2]
        exact hj
      have hih := ih d2 e h j hj2
      rw [resyncStep_eq] at hstep
      cases hlast : lastWeldBody m j cs with
      | some b =>
        rw [hlast] at hih
        have hih2 : e.mocap_quat.getD j z4 = d2.body_xquat.getD b z4 := hih
        rw [hfields.2.2.2.1] at hih2
        have hlw : lastWeldBody m j (c :: cs) = some b := by
          simp only [lastWeldBody, hlast]
        rw [hlw]
        exact hih2
      | none =>
        rw [hlast] at hih
        have hih2 : e.mocap_quat.getD j z4 = d2.mocap_quat.getD j z4 := hih
        cases hw : weldTarget m c with
        | none =>
          rw [hw] at hstep
          have hlw : lastWeldBody m j (c :: cs) = none := by
            simp only [lastWeldBody, hlast, hw]
          rw [hlw]
          by_cases h1 : c.1 = EQ_WELD
          · rw [if_pos h1] at hstep
            have h4 : (Except.error PyError.assertionError : Except PyError SimData) =
                .ok d2 := hstep
            exact absurd h4 (by simp)
          · rw [if_neg h1] at hstep
            have h4 : (Except.ok d : Except PyError SimData) = .ok d2 := hstep
            injection h4 with h5
            subst h5
            exact hih2
        | some mb =>
          rw [hw] at hstep
          have h4 : (Except.ok (writePose d mb.1 mb.2) : Except PyError SimData) =
              .ok d2 := hstep
          injection h4 with h5
          subst h5
          have hlw : lastWeldBody m j (c :: cs) =
              if mb.1 = j then some mb.2 else none := by
            simp only [lastWeldBody, hlast, hw]
          rw [hlw]
          by_cases hmj : mb.1 = j
          · rw [if_pos hmj]
            have h6 : (writePose d mb.1 mb.2).mocap_quat.getD j z4 =
                d.body_xquat.getD mb.2 z4 := by
              rw [hmj]
              exact getD_set_self d.mocap_quat j (d.body_xquat.getD mb.2 z4) z4 hj
            exact hih2.trans h6
          · rw [if_neg hmj]
            have h6 : (writePose d mb.1 mb.2).mocap_quat.getD j z4 =
                d.mocap_quat.getD j z4 :=
              getD_set_ne d.mocap_quat mb.1 j (d.body_xquat.getD mb.2 z4) z4 hmj
            exact hih2.trans h6

theorem resyncLoop_error_of_bad (m : SimModel) :
    ∀ (cs : List (ℤ × ℕ × ℕ)) (d : SimData),
      (∃ c ∈ cs, badWeld m c) → resyncLoop m d cs = .error PyError.assertionError := by
  intro cs
  induction cs with
  | nil =>
    intro d h
    obtain ⟨c, hc, _⟩ := h
    simp at hc
  | cons c cs ih =>
    intro d h
    simp only [resyncLoop]
    by_cases hbad : badWeld m c
    · have hstep : resyncStep m d c = .error PyError.assertionError := by
        rw [resyncStep_eq, hbad.2, if_pos hbad.1]
      rw [hstep]
    · obtain ⟨c2, hc2, hbad2⟩ := h
      rcases List.mem_cons.mp hc2 with hhead | hmem
      · exact absurd (hhead ▸ hbad2) hbad
      · obtain ⟨d2, hstep⟩ := resyncStep_ok_of_good m d c hbad
        rw [hstep]
        exact ih d2 ⟨c2, hmem, hbad2⟩

theorem resyncLoop_ok_of_good (m : SimModel) :
    ∀ (cs : List (ℤ × ℕ × ℕ)) (d : SimData),
      (∀ c ∈ cs, ¬ badWeld m c) → ∃ e, resyncLoop m d cs = .ok e := by
  intro cs
  induction cs with
  | nil =>
    intro d _
    exact ⟨d, rfl⟩
  | cons c cs ih =>
    intro d h
    obtain ⟨d2, hstep⟩ := resyncStep_ok_of_good m d c (h c (List.mem_cons_self c cs))
    obtain ⟨e, he⟩ := ih d2 (fun c2 hc2 => h c2 (List.mem_cons_of_mem c hc2))
    refine ⟨e, ?_⟩
    simp only [resyncLoop]
    rw [hstep]
    exact he

theorem resyncLoop_idempotent (m : SimModel) (cs : List (ℤ × ℕ × ℕ)) (d d' : SimData)
    (h : resyncLoop m d cs = .ok d') : resyncLoop m d' cs = .ok d' := by
  have hgood : ∀ c ∈ cs, ¬ badWeld m c := by
    intro c hc hbad
    have herr := resyncLoop_error_of_bad m cs d ⟨c, hc, hbad⟩
    rw [herr] at h
    exact absurd h (by simp)
  obtain ⟨e, he⟩ := resyncLoop_ok_of_good m cs d' hgood
  have hfields1 := resyncLoop_ok_fields m cs d d' h
  have hfields2 := resyncLoop_ok_fields m cs d' e he
  have hbody : d'.body_xpos = d.body_xpos := hfields1.2.2.1
  have hbodyq : d'.body_xquat = d.body_xquat := hfields1.2.2.2.1
  have hlp : d'.mocap_pos.length = d.mocap_pos.length := hfields1.2.2.2.2.1
  have hlq : d'.mocap_quat.length = d.mocap_quat.length := hfields1.2.2.2.2.2
  have hepos : e.mocap_pos = d'.mocap_pos := by
    apply list_ext_getD z3
    · rw [hfields2.2.2.2.2.1]
    · intro j hj
      have hj2 : j < d'.mocap_pos.length := by
        rw [← hfields2.2.2.2.2.1]
        exact hj
      have hc2 := resyncLoop_pos_char m cs d' e he j hj2
      have hc1 := resyncLoop_pos_char m cs d d' h j (by rw [← hlp]; exact hj2)
      cases hlast : lastWeldBody m j cs with
      | some b =>
        rw [hlast] at hc1 hc2
        have hc1b : d'.mocap_pos.getD j z3 = d.body_xpos.getD b z3 := hc1
        have hc2b : e.mocap_pos.getD j z3 = d'.body_xpos.getD b z3 := hc2
        rw [hc2b, hbody, ← hc1b]
      | none =>
        rw [hlast] at hc2
        exact hc2
  have hequat : e.mocap_quat = d'.mocap_quat := by
    apply list_ext_getD z4
    · rw [hfields2.2.2.2.2.2]
    · intro j hj
      have hj2 : j < d'.mocap_quat.length := by
        rw [← hfields2.2.2.2.2.2]
        exact hj
      have hc2 := resyncLoop_quat_char m cs d' e he j hj2
      have hc1 := resyncLoop_quat_char m cs d d' h j (by rw [← hlq]; exact hj2)
      cases hlast : lastWeldBody m j cs with
      | some b =>
        rw [hlast] at hc1 hc2
        have hc1b : d'.mocap_quat.getD j z4 = d.body_xquat.getD b z4 := hc1
        have hc2b : e.mocap_quat.getD j z4 = d'.body_xquat.getD b z4 := hc2
        rw [hc2b, hbodyq, ← hc1b]
      | none =>
        rw [hlast] at hc2
        exact hc2
  have hed : e = d' :=
    SimData.ext hfields2.1 hfields2.2.1 hepos hequat hfields2.2.2.1 hfields2.2.2.2.1
  rw [hed] at he
  exact he

theorem resync_idempotent (m : SimModel) (d d' : SimData)
    (h : reset_mocap2body_xpos m d = .ok d') :
    reset_mocap2body_xpos m d' = .ok d' := by
  unfold reset_mocap2body_xpos at h ⊢
  cases ht : m.eq_type with
  | none => rfl
  | some ts =>
    cases h1 : m.eq_obj1id with
    | none => rfl
    | some o1s =>
      cases h2 : m.eq_obj2id with
      | none => rfl
      | some o2s =>
        rw [ht, h1, h2] at h
        exact resyncLoop_idempotent m (ts.zip (o1s.zip o2s)) d d' h

theorem posDelta_take (l : List ℚ) (n j : ℕ) (hj : j < n) :
    posDelta (l.take (7 * n)) j = posDelta l j := by
  unfold posDelta
  rw [getD_take_lt l (7 * n) (7 * j) 0 (by omega),
    getD_take_lt l (7 * n) (7 * j + 1) 0 (by omega),
    getD_take_lt l (7 * n) (7 * j + 2) 0 (by omega)]

/-- C5: the delta phase of `mocap_set_action` adds each position delta to
the corresponding target position and never changes the orientation
quaternions (the quaternion columns of the command are ignored: two commands
with the same position deltas produce identical updates), and a resync
followed by a zero-delta `mocap_set_action` leaves every target pose
unchanged. -/
theorem mocap_delta_update_laws (m : SimModel) (d d' : SimData) (act act2 : List ℚ)
    (j : ℕ)
    (hre : reset_mocap2body_xpos m d = .ok d')
    (hj : j < d.mocap_pos.length)
    (hpd : ∀ i, posDelta act i = posDelta act2 i) :
    (mocap_apply_delta d act).mocap_quat = d.mocap_quat ∧
    (mocap_apply_delta d act).mocap_pos.getD j z3 =
      addV3 (d.mocap_pos.getD j z3) (posDelta act j) ∧
    mocap_apply_delta d act = mocap_apply_delta d act2 ∧
    mocap_set_action m d' (List.replicate (7 * m.nmocap) 0) = .ok d' := by
  refine ⟨rfl, ?_, ?_, ?_⟩
  · have h := getD_mapWithIndex (fun i p => addV3 p (posDelta act i)) z3 z3
      d.mocap_pos 0 j hj
    rw [Nat.zero_add] at h
    exact h
  · unfold mocap_apply_delta
    rw [mapWithIndex_congr (fun i p => addV3 p (posDelta act i))
      (fun i p => addV3 p (posDelta act2 i))
      (fun i p => by
        show addV3 p (posDelta act i) = addV3 p (posDelta act2 i)
        rw [hpd i])
      d.mocap_pos 0]
  · unfold mocap_set_action
    by_cases hn : 0 < m.nmocap
    · rw [if_pos hn]
      have hlen : ¬ (List.replicate (7 * m.nmocap) (0 : ℚ)).length < 7 * m.nmocap := by
        simp
      rw [if_neg hlen, resync_idempotent m d d' hre]
      have happ : mocap_apply_delta d'
          ((List.replicate (7 * m.nmocap) (0 : ℚ)).take (7 * m.nmocap)) = d' := by
        have htake : (List.replicate (7 * m.nmocap) (0 : ℚ)).take (7 * m.nmocap) =
            List.replicate (7 * m.nmocap) (0 : ℚ) := by
          simp
        rw [htake]
        unfold mocap_apply_delta
        have hz : ∀ i p,
            addV3 p (posDelta (List.replicate (7 * m.nmocap) (0 : ℚ)) i) = p := by
          intro i p
          unfold posDelta addV3
          simp [getD_replicate]
        rw [mapWithIndex_eq_self _ hz d'.mocap_pos 0]
      exact congrArg Except.ok happ
    · rw [if_neg hn]

/-- Witness for C5 at the concrete one-weld model. -/
theorem mocap_delta_update_laws_witness :
    (mocap_apply_delta weldSampleData mocapSampleAct).mocap_quat =
      weldSampleData.mocap_quat ∧
    (mocap_apply_delta weldSampleData mocapSampleAct).mocap_pos.getD 0 z3 =
      addV3 (weldSampleData.mocap_pos.getD 0 z3) (posDelta mocapSampleAct 0) ∧
    mocap_apply_delta weldSampleData mocapSampleAct =
      mocap_apply_delta weldSampleData mocapSampleAct ∧
    mocap_set_action weldSampleModel weldSampleSynced
      (List.replicate (7 * weldSampleModel.nmocap) 0) = .ok weldSampleSynced :=
  mocap_delta_update_laws weldSampleModel weldSampleData weldSampleSynced
    mocapSampleAct mocapSampleAct 0 (by decide) (by decide) (fun i => rfl)

/-- C6: for a weld constraint, the endpoint resolving to a mocap (checked
first on endpoint 1, then endpoint 2) receives the current pose of the other
endpoint's body; if neither endpoint resolves to a mocap the resync fails at
the assertion; and when every weld has a mocap endpoint the whole resync
succeeds. -/
theorem resync_weld_endpoints (m : SimModel) (d : SimData) (ts : List ℤ)
    (o1s o2s : List ℕ) (o1 o2 : ℕ)
    (h1 : m.eq_type = some ts) (h2 : m.eq_obj1id = some o1s)
    (h3 : m.eq_obj2id = some o2s) :
    (m.body_mocapid.getD o1 (-1) ≠ -1 →
      resyncStep m d (EQ_WELD, o1, o2) =
        .ok (writePose d (m.body_mocapid.getD o1 (-1)).toNat o2)) ∧
    (m.body_mocapid.getD o1 (-1) = -1 → m.body_mocapid.getD o2 (-1) ≠ -1 →
      resyncStep m d (EQ_WELD, o1, o2) =
        .ok (writePose d (m.body_mocapid.getD o2 (-1)).toNat o1)) ∧
    (m.body_mocapid.getD o1 (-1) = -1 → m.body_mocapid.getD o2 (-1) = -1 →
      resyncStep m d (EQ_WELD, o1, o2) = .error PyError.assertionError) ∧
    ((∃ c ∈ ts.zip (o1s.zip o2s), badWeld m c) →
      reset_mocap2body_xpos m d = .error PyError.assertionError) ∧
    ((∀ c ∈ ts.zip (o1s.zip o2s), ¬ badWeld m c) →
      ∃ e, reset_mocap2body_xpos m d = .ok e) := by
  refine ⟨?_, ?_, ?_, ?_, ?_⟩
  · intro hm1
    have hw : weldTarget m (EQ_WELD, o1, o2) =
        some ((m.body_mocapid.getD o1 (-1)).toNat, o2) := by
      simp only [weldTarget, if_true]
      rw [if_pos hm1]
    rw [resyncStep_eq, hw]
  · intro hm1 hm2
    have hw : weldTarget m (EQ_WELD, o1, o2) =
        some ((m.body_mocapid.getD o2 (-1)).toNat, o1) := by
      simp only [weldTarget, if_true]
      rw [if_neg (fun hh => hh hm1), if_pos hm2]
    rw [resyncStep_eq, hw]
  · intro hm1 hm2
    have hw : weldTarget m (EQ_WELD, o1, o2) = none := by
      simp only [weldTarget, if_true]
      rw [if_neg (fun hh => hh hm1), if_neg (fun hh => hh hm2)]
    rw [resyncStep_eq, hw]
    rfl
  · intro hbad
    unfold reset_mocap2body_xpos
    rw [h1, h2, h3]
    exact resyncLoop_error_of_bad m (ts.zip (o1s.zip o2s)) d hbad
  · intro hgood
    unfold reset_mocap2body_xpos
    rw [h1, h2, h3]
    exact resyncLoop_ok_of_good m (ts.zip (o1s.zip o2s)) d hgood

/-- Witness for C6 at the concrete one-weld model. -/
theorem resync_weld_endpoints_witness :
    (weldSampleModel.body_mocapid.getD 1 (-1) ≠ -1 →
      resyncStep weldSampleModel weldSampleData (EQ_WELD, 1, 2) =
        .ok (writePose weldSampleData
          (weldSampleModel.body_mocapid.getD 1 (-1)).toNat 2)) ∧
    (weldSampleModel.body_mocapid.getD 1 (-1) = -1 →
      weldSampleModel.body_mocapid.getD 2 (-1) ≠ -1 →
      resyncStep weldSampleModel weldSampleData (EQ_WELD, 1, 2) =
        .ok (writePose weldSampleData
          (weldSampleModel.body_mocapid.getD 2 (-1)).toNat 1)) ∧
    (weldSampleModel.body_mocapid.getD 1 (-1) = -1 →
      weldSampleModel.body_mocapid.getD 2 (-1) = -1 →
      resyncStep weldSampleModel weldSampleData (EQ_WELD, 1, 2) =
        .error PyError.assertionError) ∧
    ((∃ c ∈ ([1] : List ℤ).zip (([1] : List ℕ).zip ([2] : List ℕ)),
        badWeld weldSampleModel c) →
      reset_mocap2body_xpos weldSampleModel weldSampleData =
        .error PyError.assertionError) ∧
    ((∀ c ∈ ([1] : List ℤ).zip (([1] : List ℕ).zip ([2] : List ℕ)),
        ¬ badWeld weldSampleModel c) →
      ∃ e, reset_mocap2body_xpos weldSampleModel weldSampleData = .ok e) :=
  resync_weld_endpoints weldSampleModel weldSampleData [1] [1] [2] 1 2 rfl rfl rfl

/-- C10: on every invocation, `mocap_set_action` first snaps each mocap to
the pose of its welded body and then adds the position delta, so the
resulting mocap position is the welded body's current position plus the
delta (and its quaternion is the body's), independent of the previous mocap
pose. -/
theorem mocap_delta_snaps_to_body (m : SimModel) (d : SimData) (act : List ℚ)
    (ts : List ℤ) (o1s o2s : List ℕ) (j b : ℕ)
    (h1 : m.eq_type = some ts) (h2 : m.eq_obj1id = some o1s)
    (h3 : m.eq_obj2id = some o2s)
    (hn : 0 < m.nmocap) (hjn : j < m.nmocap)
    (hlen : 7 * m.nmocap ≤ act.length)
    (hgood : ∀ c ∈ ts.zip (o1s.zip o2s), ¬ badWeld m c)
    (hlast : lastWeldBody m j (ts.zip (o1s.zip o2s)) = some b)
    (hjp : j < d.mocap_pos.length) (hjq : j < d.mocap_quat.length) :
    ∃ e, mocap_set_action m d act = .ok e ∧
      e.mocap_pos.getD j z3 = addV3 (d.body_xpos.getD b z3) (posDelta act j) ∧
      e.mocap_quat.getD j z4 = d.body_xquat.getD b z4 := by
  obtain ⟨d2, hd2⟩ := resyncLoop_ok_of_good m (ts.zip (o1s.zip o2s)) d hgood
  have hre : reset_mocap2body_xpos m d = .ok d2 := by
    unfold reset_mocap2body_xpos
    rw [h1, h2, h3]
    exact hd2
  have hfields := resyncLoop_ok_fields m (ts.zip (o1s.zip o2s)) d d2 hd2
  have hposc : d2.mocap_pos.getD j z3 = d.body_xpos.getD b z3 := by
    have hc := resyncLoop_pos_char m (ts.zip (o1s.zip o2s)) d d2 hd2 j hjp
    rw [hlast] at hc
    exact hc
  have hquatc : d2.mocap_quat.getD j z4 = d.body_xquat.getD b z4 := by
    have hc := resyncLoop_quat_char m (ts.zip (o1s.zip o2s)) d d2 hd2 j hjq
    rw [hlast] at hc
    exact hc
  refine ⟨mocap_apply_delta d2 (act.take (7 * m.nmocap)), ?_, ?_, ?_⟩
  · unfold mocap_set_action
    rw [if_pos hn, if_neg (by omega), hre]
  · have hj2 : j < d2.mocap_pos.length := by
      rw [hfields.2.2.2.2.1]
      exact hjp
    have hmap := getD_mapWithIndex
      (fun i p => addV3 p (posDelta (act.take (7 * m.nmocap)) i)) z3 z3
      d2.mocap_pos 0 j hj2
    rw [Nat.zero_add] at hmap
    have hmap2 : (mocap_apply_delta d2 (act.take (7 * m.nmocap))).mocap_pos.getD j z3 =
        addV3 (d2.mocap_pos.getD j z3) (posDelta (act.take (7 * m.nmocap)) j) := hmap
    rw [hmap2, hposc, posDelta_take act m.nmocap j hjn]
  · exact hquatc

/-- Witness for C10 at the concrete one-weld model with a nonzero delta. -/
theorem mocap_delta_snaps_to_body_witness :
    ∃ e, mocap_set_action weldSampleModel weldSampleData mocapSampleAct = .ok e ∧
      e.mocap_pos.getD 0 z3 =
        addV3 (weldSampleData.body_xpos.getD 2 z3) (posDelta mocapSampleAct 0) ∧
      e.mocap_quat.getD 0 z4 = weldSampleData.body_xquat.getD 2 z4 :=
  mocap_delta_snaps_to_body weldSampleModel weldSampleData mocapSampleAct
    [1] [1] [2] 0 2 rfl rfl rfl (by decide) (by decide) (by decide) (by decide)
    (by decide) (by decide) (by decide)

end Kitchen
